import Mathlib

/-
Verification of the splint lexical linter (src/splint/src/ty.rs, lib.rs,
compiler.rs): a shallow embedding of the token model, the Needle/Rule
matchers, the match_rule engine, the LintError builder and the structured
compiler-diagnostic construction, together with theorems settling the
specified properties. Fallible or panicking Rust code is embedded as
Option-valued functions where `none` models a panic (an `unwrap` failure
or a debug-build integer underflow); non-terminating recursion is modelled
with explicit fuel, with `none` also standing for divergence.
-/

/-! ## Source positions and tokens (ty.rs, `Named`) -/

/-- A line/column pair as carried by a proc_macro2 span: `line` is 1-based,
`column` is 0-based. -/
structure LineCol where
  line : Nat
  column : Nat
deriving DecidableEq

/-- A token span: `start`/`stop` model the Rust span's `start()` and `end()`
line-column positions, `byteStart`/`byteEnd` its `byte_range()`. -/
structure Span where
  start : LineCol
  stop : LineCol
  byteStart : Nat
  byteEnd : Nat
deriving DecidableEq

/-- The token type `Named(String, String, Span)` of ty.rs: a kind string
("Ident", "Punct", "Literal", "Delim"), the token text, and its span. -/
structure Named where
  kind : String
  text : String
  span : Span
deriving DecidableEq

/-! ## Model of the external regex crate

The splint source delegates to `regex::Regex::new` and `Regex::is_match`,
which belong to an external crate. The model below covers the fragment of
the regex language those calls are exercised on in this development:
literal characters plus the `^` and `$` anchors. Every metacharacter of
the full language (grouping, classes, repetition, alternation, escapes,
the any-char dot) is outside the fragment and makes compilation fail;
in particular an unmatched `(` such as in the pattern `/(/` is a genuine
compile error of the real crate as well. `is_match` searches for a match
starting at every position of the haystack. -/

/-- An item of a compiled regular expression: a literal character, the
start-of-haystack anchor `^`, or the end-of-haystack anchor `$`. -/
inductive RItem where
  | lit : Char → RItem
  | anchorStart : RItem
  | anchorEnd : RItem
deriving DecidableEq

/-- Characters outside the modelled regex fragment; compilation fails on
them. -/
def regexMeta (c : Char) : Bool :=
  c = '(' || c = ')' || c = '[' || c = ']' || c = '\x7b' || c = '\x7d' ||
  c = '*' || c = '+' || c = '?' || c = '|' || c = '\\' || c = '.'

/-- Parses a regex pattern within the modelled fragment; `none` models a
compile error of `regex::Regex::new`. -/
def regexParse : List Char → Option (List RItem)
  | [] => some []
  | c :: rest =>
    if regexMeta c then none
    else (regexParse rest).map (fun r =>
      (if c = '^' then RItem.anchorStart
       else if c = '$' then RItem.anchorEnd
       else RItem.lit c) :: r)

/-- Compiles a pattern string, modelling `regex::Regex::new`. -/
def regexCompile (v : String) : Option (List RItem) :=
  regexParse v.data

/-- Matches a compiled pattern against `full` starting exactly at offset
`i`. -/
def rmatchAt (full : List Char) : List RItem → Nat → Bool
  | [], _ => true
  | RItem.lit c :: rest, i =>
    match full[i]? with
    | some d => d = c && rmatchAt full rest (i + 1)
    | none => false
  | RItem.anchorStart :: rest, i => decide (i = 0) && rmatchAt full rest i
  | RItem.anchorEnd :: rest, i => decide (i = full.length) && rmatchAt full rest i

/-- Matching anywhere in the haystack, modelling `Regex::is_match`. -/
def risMatch (p : List RItem) (s : String) : Bool :=
  (List.range (s.data.length + 1)).any (fun i => rmatchAt s.data p i)

/-! ## Needles and rules (ty.rs) -/

/-- The single-token matcher `Needle(String, Option<String>)`: a kind and an
optional value constraint. -/
structure Needle where
  kind : String
  value : Option String
deriving DecidableEq

/-- Tests whether the needle value is delimited by slashes, mirroring
`v.starts_with('/') && v.ends_with('/')`. -/
def slashWrapped (v : String) : Bool :=
  v.data.head? = some '/' && v.data.getLast? = some '/'

/-- The matcher `Needle::test` of ty.rs. The kind strings are compared
first and short-circuit the value check. When the value is slash-wrapped
the source compiles the WHOLE value `v` — slashes included — with
`regex::Regex::new(v).unwrap()`; a compile failure is therefore a panic
raised here, during matching, modelled by `none`. -/
def Needle.test (n : Needle) (t : Named) : Option Bool :=
  if t.kind = n.kind then
    match n.value with
    | none => some true
    | some v =>
      if slashWrapped v then
        match regexCompile v with
        | none => none
        | some p => some (risMatch p t.text)
      else some (decide (t.text = v))
  else some false

/-- A lint rule as declared in ty.rs. The `replace` field is read by
compiler.rs as `self.rule.replace : Option<String>` even though the struct
declaration snapshot omits it; it is included here as that use requires. -/
structure Rule where
  name : String
  description : String
  help : Option String
  range : Nat × Nat
  pattern : List Needle
  link : Option String
  fails : Bool
  replace : Option String
deriving DecidableEq

/-- The result of `Rule::test`: `ok` models `Ok(())` (no match), `found w`
models `Err(window)`. -/
inductive TestResult where
  | ok : TestResult
  | found : List Named → TestResult
deriving DecidableEq

/-- Element-wise window check `window.zip(pattern).all(|(a, b)| b.test(a))`,
short-circuiting at the first `false` and propagating a panic (`none`)
raised by an earlier needle test. -/
def testWindow : List Named → List Needle → Option Bool
  | _, [] => some true
  | [], _ :: _ => some true
  | t :: ts, n :: ns =>
    match Needle.test n t with
    | none => none
    | some false => some false
    | some true => testWindow ts ns

/-- The scan of `Rule::test`: walk the token list; at each token the filter
closure evaluates `self.pattern.first().unwrap()` (a panic — `none` — when
the pattern is empty), compares kinds, and on a kind hit takes the window
`s[m .. m+len)`, skipping it when it is shorter than the pattern. -/
def ruleTestAux (pat : List Needle) : List Named → Option TestResult
  | [] => some TestResult.ok
  | t :: rest =>
    match pat.head? with
    | none => none
    | some n0 =>
      if n0.kind = t.kind then
        if ((t :: rest).take pat.length).length = pat.length then
          match testWindow ((t :: rest).take pat.length) pat with
          | none => none
          | some true => some (TestResult.found ((t :: rest).take pat.length))
          | some false => ruleTestAux pat rest
        else ruleTestAux pat rest
      else ruleTestAux pat rest

/-- The method `Rule::test` of ty.rs. -/
def Rule.test (r : Rule) (s : List Named) : Option TestResult :=
  ruleTestAux r.pattern s

/-! ## The matching engine (lib.rs, `match_rule`)

The Rust recursion has no structural decrease: the recursive call acts on
`tokens` with the prefix of tokens starting before the resume position
dropped, and on pathological span data nothing is dropped and the function
loops forever. The embedding therefore burns one unit of fuel per
recursive call; `match_rule` supplies `tokens.length + 1` units, which is
exact whenever every call strictly shortens the list, so fuel exhaustion
(`none`) occurs precisely when the source diverges. -/

/-- Fuelled body of `match_rule`. -/
def match_rule_fuel : Nat → Rule → List Named → Option (List (Rule × List Named))
  | 0, _, _ => none
  | Nat.succ f, r, tokens =>
    if tokens.length < r.pattern.length then some []
    else
      match Rule.test r tokens with
      | none => none
      | some TestResult.ok => some []
      | some (TestResult.found e) =>
        match e.getLast? with
        | none => none
        | some lastTok =>
          (match_rule_fuel f r (tokens.dropWhile (fun v =>
            if v.span.start.line < lastTok.span.stop.line then true
            else if v.span.start.line = lastTok.span.stop.line then
              decide (v.span.start.column < lastTok.span.stop.column)
            else false))).map (fun rest => (r, e) :: rest)

/-- The engine `match_rule` of lib.rs: finds every non-overlapping match of
`rule` in `tokens`, resuming after the line/column end of each matched
window's last token. -/
def match_rule (r : Rule) (tokens : List Named) : Option (List (Rule × List Named)) :=
  match_rule_fuel (tokens.length + 1) r tokens

/-! ## The lint runner (lib.rs, `test`) -/

/-- The named source `NamedSource::new(file_name, source)` carried by a
LintError: the file name and the full source text. -/
structure NamedSource where
  name : String
  inner : String
deriving DecidableEq

/-- One violation, the `LintError` struct of ty.rs: the rule, its severity
flag, the pair (text of the line holding the window's first token, count of
characters on all earlier lines), the matched window and the source. -/
structure LintError where
  rule : Rule
  fails : Bool
  line : String × Nat
  window : List Named
  source : NamedSource
deriving DecidableEq

/-- Splits on a line feed, keeping every piece including a trailing empty
one. -/
def splitNl : List Char → List (List Char)
  | [] => [[]]
  | '\n' :: rest => [] :: splitNl rest
  | c :: rest =>
    match splitNl rest with
    | [] => [[c]]
    | p :: ps => (c :: p) :: ps

/-- Strips one carriage return at the end of a piece. -/
def stripCr (l : List Char) : List Char :=
  if l.getLast? = some '\x0d' then l.dropLast else l

/-- The Rust `str::lines()` iterator: pieces split at `\n`, a `\r` directly
before each `\n` removed, and the optional final line terminator producing
no extra empty line. -/
def linesOf (s : String) : List String :=
  let ps := splitNl s.data
  (ps.dropLast.map (fun p => String.mk (stripCr p))) ++
    (match ps.getLast? with
     | some [] => []
     | some last => [String.mk last]
     | none => [])

/-- Count of the characters on the lines strictly before 1-based line
`line`, mirroring the `filter(i < line - 1) ... reduce(+)` computation of
lib.rs (`unwrap_or_default` makes the empty sum 0). -/
def lineOffset (source : String) (line : Nat) : Nat :=
  (((linesOf source).take (line - 1)).map String.length).sum

/-- Effectful map over a list in the Option monad: `none` as soon as one
element fails, modelling a Rust panic inside an iterator chain. -/
def optionMapM {α β : Type} (f : α → Option β) : List α → Option (List β)
  | [] => some []
  | x :: xs =>
    match f x with
    | none => none
    | some y => (optionMapM f xs).map (fun ys => y :: ys)

/-- Construction of one LintError inside `test` of lib.rs. The source calls
`r.first().unwrap()` (panic on an empty window) and looks the 1-based start
line up with `nth(line - 1).unwrap_or_default()`, so an out-of-range line
silently becomes the empty string; `line - 1` underflows (a debug-build
panic, `none`) when the line number is 0. -/
def buildLintError (rule : Rule) (window : List Named) (source fileName : String) :
    Option LintError :=
  match window.head? with
  | none => none
  | some ft =>
    match ft.span.start.line with
    | 0 => none
    | Nat.succ l =>
      some { rule := rule, fails := rule.fails, window := window,
             line := ((linesOf source).getD l "",
                     (((linesOf source).take l).map String.length).sum),
             source := { name := fileName, inner := source } }

/-- The function `test` of lib.rs: run `match_rule` for every rule of the
set (the HashMap iteration is modelled by list order), concatenate, and
build one LintError per match. -/
def test (rules : List (String × Rule)) (tokens : List Named)
    (source fileName : String) : Option (List LintError) :=
  (optionMapM (fun rv => match_rule rv.2 tokens) rules).bind (fun per =>
    optionMapM (fun p => buildLintError p.1 p.2 source fileName) per.flatten)

/-! ## Structured diagnostics (compiler.rs) -/

/-- Applicability of a suggested replacement. -/
inductive SuggestionApplicability where
  | machineApplicable
  | hasPlaceholders
  | maybeIncorrect
  | unspecified
deriving DecidableEq

/-- Severity levels of a compiler message. -/
inductive CompilerMessageLevel where
  | warning
  | note
  | help
  | errorNote
  | error
deriving DecidableEq

/-- One line of span text with its highlight range. -/
structure CompilerSpanText where
  highlightStart : Nat
  highlightEnd : Nat
  text : String
deriving DecidableEq

/-- The primary span record of a structured diagnostic. -/
structure CompilerSpan where
  byteStart : Nat
  byteEnd : Nat
  columnStart : Nat
  columnEnd : Nat
  lineEnd : Nat
  lineStart : Nat
  expansion : Option Unit
  fileName : String
  isPrimary : Bool
  label : Option String
  suggestedReplacement : Option String
  suggestionApplicability : Option SuggestionApplicability
  text : List CompilerSpanText
deriving DecidableEq

/-- A child diagnostic of a compiler message. -/
structure CompilerMessageChild where
  children : List Unit
  code : Option String
  level : CompilerMessageLevel
  message : String
  rendered : Option String
  spans : List CompilerSpan
deriving DecidableEq

/-- The code record of a compiler message. -/
structure CompilerMessageCode where
  code : String
  explanation : Option String
deriving DecidableEq

/-- Build-target metadata of a compiler message. -/
structure CompilerMessageTarget where
  kind : List String
  crateTypes : List String
  name : String
  srcPath : String
  edition : String
  doc : Bool
  doctest : Bool
  test : Bool
deriving DecidableEq

/-- The inner message of a structured diagnostic; `messageType` carries the
fixed kebab-cased `$message_type` string. -/
structure CompilerMessageInner where
  rendered : Option String
  messageType : String
  children : List CompilerMessageChild
  code : CompilerMessageCode
  level : CompilerMessageLevel
  message : String
  spans : List CompilerSpan
deriving DecidableEq

/-- A full structured diagnostic; `reason` carries the fixed kebab-cased
reason string. -/
structure CompilerMessage where
  reason : String
  packageId : String
  manifestPath : String
  target : CompilerMessageTarget
  message : CompilerMessageInner
deriving DecidableEq

/-- Subtraction of usize values as in a debug build: `none` models the
underflow panic. -/
def checkedSub (a b : Nat) : Option Nat :=
  if b ≤ a then some (a - b) else none

/-- The `Into<CompilerSpan> for &LintError` conversion of compiler.rs.
The window's first and last tokens are taken with `unwrap` (panic on an
empty window); `highlight_end = byte_start - line.1` and `highlight_start =
highlight_end - (byte_end - byte_start)` are usize subtractions that panic
on underflow. -/
def intoCompilerSpan (e : LintError) : Option CompilerSpan :=
  match e.window.head?, e.window.getLast? with
  | some ft, some lt =>
    (checkedSub ft.span.byteStart e.line.2).bind (fun highlightEnd =>
      (checkedSub lt.span.byteEnd ft.span.byteStart).bind (fun width =>
        (checkedSub highlightEnd width).map (fun highlightStart =>
          { byteEnd := lt.span.byteEnd
            byteStart := ft.span.byteStart
            columnEnd := lt.span.stop.column + 1
            columnStart := ft.span.start.column + 1
            expansion := none
            fileName := e.source.name
            isPrimary := true
            label := none
            lineEnd := lt.span.stop.line
            lineStart := ft.span.start.line
            suggestedReplacement := e.rule.replace
            suggestionApplicability := none
            text := [{ highlightEnd := highlightEnd
                       highlightStart := highlightStart
                       text := e.line.1 }] })))
  | _, _ => none

/-- The method `LintError::json_diagnostic` of compiler.rs. The span
conversion runs first, so its panics propagate. The canonicalized file path
and the miette-rendered text are produced by external capabilities
(filesystem canonicalization and the miette report renderer) and enter as
the parameters `absPath` and `rendered`. The first child carries the
diagnostic's own error/warning level and the rule description with no
spans; a help child is pushed only when `rule.help` is present. -/
def json_diagnostic (e : LintError) (absPath rendered : String) :
    Option CompilerMessage :=
  (intoCompilerSpan e).map (fun span =>
    { reason := "compiler-message"
      packageId := ""
      manifestPath := ""
      target := { kind := ["bin"], crateTypes := ["bin"], name := "splint",
                  srcPath := absPath, edition := "2021",
                  doc := true, doctest := false, test := true }
      message :=
        { messageType := "diagnostic"
          children :=
            [{ children := [], code := none,
               level := if e.rule.fails then CompilerMessageLevel.error
                        else CompilerMessageLevel.warning,
               message := e.rule.description, rendered := none, spans := [] }] ++
            (match e.rule.help with
             | some h =>
               [{ children := [], code := none,
                  level := CompilerMessageLevel.help,
                  message := h, rendered := none, spans := [span] }]
             | none => [])
          level := if e.rule.fails then CompilerMessageLevel.error
                   else CompilerMessageLevel.warning
          rendered := some rendered
          message := e.rule.name
          spans := [span]
          code := { code := e.rule.name, explanation := none } } })

/-! ## Source-position order -/

/-- Strict line-then-column order on positions. -/
def lcLt (a b : LineCol) : Prop :=
  a.line < b.line ∨ (a.line = b.line ∧ a.column < b.column)

/-- Weak line-then-column order on positions. -/
def lcLe (a b : LineCol) : Prop :=
  a.line < b.line ∨ (a.line = b.line ∧ a.column ≤ b.column)

instance (a b : LineCol) : Decidable (lcLt a b) := by
  unfold lcLt; exact inferInstance

instance (a b : LineCol) : Decidable (lcLe a b) := by
  unfold lcLe; exact inferInstance

/-- Ordering of two matches produced by the engine: the later match's first
token starts at or after the line/column end of the earlier match's last
token, and the first tokens' start positions strictly increase. -/
def windowRel (p q : Rule × List Named) : Prop :=
  (∀ l, p.2.getLast? = some l → ∀ h, q.2.head? = some h →
    lcLe l.span.stop h.span.start) ∧
  (∀ hp, p.2.head? = some hp → ∀ hq, q.2.head? = some hq →
    lcLt hp.span.start hq.span.start)

instance (p q : Rule × List Named) : Decidable (windowRel p q) := by
  unfold windowRel; exact inferInstance

/-! ## Concrete sample data used by counterexamples and witnesses -/

/-- A fixed one-character span on line 1. -/
def spanZero : Span := ⟨⟨1, 0⟩, ⟨1, 1⟩, 0, 1⟩

/-- A rule whose single needle matches an `Ident` token with text `x`. -/
def ruleIdentX : Rule :=
  ⟨"no-x", "desc", none, (0, 0), [⟨"Ident", some "x"⟩], none, false, none⟩

/-- A rule whose single needle matches any `Ident` token. -/
def ruleAnyIdent : Rule :=
  ⟨"any-ident", "desc", none, (0, 0), [⟨"Ident", none⟩], none, false, none⟩

/-- A rule with an empty pattern. -/
def ruleEmptyPat : Rule :=
  ⟨"empty", "desc", none, (0, 0), [], none, false, none⟩

/-- An `Ident` token `x` spanning line 1, columns 0 to 1, bytes 0 to 1. -/
def tokA : Named := ⟨"Ident", "x", ⟨⟨1, 0⟩, ⟨1, 1⟩, 0, 1⟩⟩

/-- An `Ident` token `y` spanning line 1, columns 1 to 2, bytes 1 to 2. -/
def tokB : Named := ⟨"Ident", "y", ⟨⟨1, 1⟩, ⟨1, 2⟩, 1, 2⟩⟩

/-- An `Ident` token `x` placed out of source order: it spans line 1,
columns 0 to 9, bytes 0 to 9, although it sits after `tokB` in the list. -/
def tokC : Named := ⟨"Ident", "x", ⟨⟨1, 0⟩, ⟨1, 9⟩, 0, 9⟩⟩

/-- An `Ident` token `x` spanning line 1, columns 2 to 3, bytes 2 to 3. -/
def tokD : Named := ⟨"Ident", "x", ⟨⟨1, 2⟩, ⟨1, 3⟩, 2, 3⟩⟩

/-- An `Ident` token `x` on line 5 of its file. -/
def tokLine5 : Named := ⟨"Ident", "x", ⟨⟨5, 0⟩, ⟨5, 1⟩, 0, 1⟩⟩

/-- An `Ident` token `x` at line 1, columns 3 to 4, bytes 3 to 4, as
tokenized from the source text `hi x`. -/
def tokHi : Named := ⟨"Ident", "x", ⟨⟨1, 3⟩, ⟨1, 4⟩, 3, 4⟩⟩

/-- The LintError built by `test` for `ruleIdentX` over `[tokHi]` in the
source text `hi x` of file `f.rs`. -/
def errSample : LintError :=
  { rule := ruleIdentX, fails := false, line := ("hi x", 0),
    window := [tokHi], source := ⟨"f.rs", "hi x"⟩ }

/-- The compiler span produced for `errSample`. -/
def spSample : CompilerSpan :=
  { byteEnd := 4, byteStart := 3, columnEnd := 5, columnStart := 4,
    expansion := none, fileName := "f.rs", isPrimary := true, label := none,
    lineEnd := 1, lineStart := 1, suggestedReplacement := none,
    suggestionApplicability := none, text := [⟨2, 3, "hi x"⟩] }

/-- A LintError whose window starts at byte offset 0 of the file. -/
def errZero : LintError :=
  { rule := ruleIdentX, fails := false, line := ("x y", 0),
    window := [tokA], source := ⟨"f.rs", "x y"⟩ }

/-- The structured diagnostic produced for `errSample` with canonical path
`/tmp/f.rs` and rendered text `rendered`. -/
def msgSample : CompilerMessage :=
  { reason := "compiler-message", packageId := "", manifestPath := "",
    target := { kind := ["bin"], crateTypes := ["bin"], name := "splint",
                srcPath := "/tmp/f.rs", edition := "2021",
                doc := true, doctest := false, test := true },
    message := { rendered := some "rendered", messageType := "diagnostic",
                 children := [⟨[], none, CompilerMessageLevel.warning, "desc",
                              none, []⟩],
                 code := ⟨"no-x", none⟩, level := CompilerMessageLevel.warning,
                 message := "no-x", spans := [spSample] } }

/-- The LintError built by `test` for `ruleAnyIdent` over `[tokLine5]` in
the one-line source text `abc`: the token's line number 5 is out of range,
so the stored line text silently defaults to the empty string while the
stored offset sums every existing line. -/
def errLine5 : LintError :=
  { rule := ruleAnyIdent, fails := false, line := ("", 3),
    window := [tokLine5], source := ⟨"f.rs", "abc"⟩ }

/-! ## Helper lemmas -/

theorem lcLe_refl (a : LineCol) : lcLe a a := by
  unfold lcLe; omega

theorem lcLe_trans {a b c : LineCol} (h1 : lcLe a b) (h2 : lcLe b c) : lcLe a c := by
  unfold lcLe at *; omega

theorem lcLe_lcLt_trans {a b c : LineCol} (h1 : lcLe a b) (h2 : lcLt b c) : lcLt a c := by
  unfold lcLe lcLt at *; omega

theorem lcLt_lcLe_trans {a b c : LineCol} (h1 : lcLt a b) (h2 : lcLe b c) : lcLt a c := by
  unfold lcLe lcLt at *; omega

theorem not_lcLt_le {a b : LineCol} (h : ¬ lcLt a b) : lcLe b a := by
  unfold lcLt at h; unfold lcLe; omega

theorem dropPred_eq_true_iff (v : Named) (c : LineCol) :
    ((if v.span.start.line < c.line then true
      else if v.span.start.line = c.line then decide (v.span.start.column < c.column)
      else false) = true) ↔ lcLt v.span.start c := by
  unfold lcLt
  by_cases h1 : v.span.start.line < c.line <;>
    by_cases h2 : v.span.start.line = c.line <;>
      simp [h1, h2]

theorem dropWhile_sorted_bound (c : LineCol) (l : List Named)
    (hp : List.Pairwise (fun a b : Named => lcLe a.span.start b.span.start) l) :
    ∀ t ∈ l.dropWhile (fun v =>
      if v.span.start.line < c.line then true
      else if v.span.start.line = c.line then decide (v.span.start.column < c.column)
      else false), lcLe c t.span.start := by
  induction l with
  | nil => intro t ht; simp [List.dropWhile] at ht
  | cons x xs ih =>
    rw [List.pairwise_cons] at hp
    intro t ht
    rw [List.dropWhile_cons] at ht
    by_cases hx : (if x.span.start.line < c.line then true
        else if x.span.start.line = c.line then decide (x.span.start.column < c.column)
        else false) = true
    · rw [if_pos hx] at ht
      exact ih hp.2 t ht
    · rw [if_neg hx] at ht
      have hcx : lcLe c x.span.start :=
        not_lcLt_le (fun hc => hx ((dropPred_eq_true_iff x c).mpr hc))
      cases ht with
      | head => exact hcx
      | tail _ ht' => exact lcLe_trans hcx (hp.1 t ht')

theorem ruleTestAux_found_sublist (pat : List Needle) :
    ∀ (s e : List Named), ruleTestAux pat s = some (TestResult.found e) → e.Sublist s := by
  intro s
  induction s with
  | nil => intro e h; simp [ruleTestAux] at h
  | cons t rest ih =>
    intro e h
    unfold ruleTestAux at h
    split at h
    · cases h
    · split at h
      · split at h
        · split at h
          · cases h
          · cases h; exact List.take_sublist _ _
          · exact List.Sublist.cons t (ih e h)
        · exact List.Sublist.cons t (ih e h)
      · exact List.Sublist.cons t (ih e h)

theorem match_rule_fuel_window_sublist :
    ∀ (f : Nat) (r : Rule) (tokens : List Named) (ms : List (Rule × List Named)),
      match_rule_fuel f r tokens = some ms → ∀ pr ∈ ms, pr.2.Sublist tokens := by
  intro f
  induction f with
  | zero => intro r tokens ms h; cases h
  | succ f ih =>
    intro r tokens ms h pr hpr
    unfold match_rule_fuel at h
    split at h
    · cases h; cases hpr
    · split at h
      · cases h
      · cases h; cases hpr
      · rename_i e hT
        split at h
        · cases h
        · rename_i lastTok hL
          simp only [Option.map_eq_some'] at h
          obtain ⟨rest, hrest, rfl⟩ := h
          cases hpr with
          | head => exact ruleTestAux_found_sublist r.pattern tokens e hT
          | tail _ hpr' =>
            exact (ih r _ rest hrest pr hpr').trans (List.dropWhile_sublist _)

theorem pairwise_head_last {R : Named → Named → Prop} (hrefl : ∀ a, R a a)
    (l : List Named) (hp : List.Pairwise R l) (x y : Named)
    (hx : l.head? = some x) (hy : l.getLast? = some y) : R x y := by
  cases l with
  | nil => cases hx
  | cons a as =>
    rw [List.head?_cons] at hx
    cases hx
    cases as with
    | nil => rw [List.getLast?_singleton] at hy; cases hy; exact hrefl _
    | cons b bs =>
      rw [List.pairwise_cons] at hp
      rw [List.getLast?_cons_cons] at hy
      exact hp.1 y (List.mem_of_getLast?_eq_some hy)

theorem optionMapM_mem {α β : Type} (f : α → Option β) :
    ∀ (xs : List α) (ys : List β), optionMapM f xs = some ys →
      ∀ y ∈ ys, ∃ x ∈ xs, f x = some y := by
  intro xs
  induction xs with
  | nil =>
    intro ys h y hy
    unfold optionMapM at h
    cases h
    cases hy
  | cons x xs ih =>
    intro ys h y hy
    unfold optionMapM at h
    cases hfx : f x with
    | none => rw [hfx] at h; cases h
    | some b =>
      rw [hfx] at h
      simp only [Option.map_eq_some'] at h
      obtain ⟨ys', hys', rfl⟩ := h
      cases hy with
      | head => exact ⟨x, List.mem_cons_self x xs, hfx⟩
      | tail _ hy' =>
        obtain ⟨x', hx', hfx'⟩ := ih ys' hys' y hy'
        exact ⟨x', List.mem_cons_of_mem x hx', hfx'⟩

theorem buildLintError_inv (rule : Rule) (window : List Named)
    (source fileName : String) (e : LintError)
    (h : buildLintError rule window source fileName = some e) :
    ∃ ft l, window.head? = some ft ∧ ft.span.start.line = l + 1 ∧
      e = { rule := rule, fails := rule.fails, window := window,
            line := ((linesOf source).getD l "",
                    (((linesOf source).take l).map String.length).sum),
            source := { name := fileName, inner := source } } := by
  unfold buildLintError at h
  split at h
  · cases h
  · rename_i ft hw
    split at h
    · cases h
    · rename_i l hline
      cases h
      exact ⟨ft, l, hw, hline, rfl⟩

theorem intoCompilerSpan_inv (e : LintError) (sp : CompilerSpan)
    (h : intoCompilerSpan e = some sp) :
    ∃ ft lt, e.window.head? = some ft ∧ e.window.getLast? = some lt ∧
      e.line.2 ≤ ft.span.byteStart ∧ ft.span.byteStart ≤ lt.span.byteEnd ∧
      sp = { byteEnd := lt.span.byteEnd, byteStart := ft.span.byteStart,
             columnEnd := lt.span.stop.column + 1,
             columnStart := ft.span.start.column + 1,
             expansion := none, fileName := e.source.name, isPrimary := true,
             label := none, lineEnd := lt.span.stop.line,
             lineStart := ft.span.start.line,
             suggestedReplacement := e.rule.replace,
             suggestionApplicability := none,
             text := [{ highlightEnd := ft.span.byteStart - e.line.2,
                        highlightStart := (ft.span.byteStart - e.line.2) -
                          (lt.span.byteEnd - ft.span.byteStart),
                        text := e.line.1 }] } := by
  unfold intoCompilerSpan at h
  split at h
  · rename_i ft lt hf hl
    simp only [checkedSub, Option.bind_eq_some, Option.map_eq_some'] at h
    obtain ⟨he, hhe, wd, hwd, hs, hhs, hsp⟩ := h
    split at hhe
    · cases hhe
      split at hwd
      · cases hwd
        split at hhs
        · cases hhs
          refine ⟨ft, lt, hf, hl, by assumption, by assumption, hsp.symm⟩
        · cases hhs
      · cases hwd
    · cases hhe
  · cases h

theorem lcLe_not_lt {a b : LineCol} (h : lcLe a b) : ¬ lcLt b a := by
  unfold lcLe at h; unfold lcLt; omega

theorem mem_takeWhile_pred (p : Named → Bool) :
    ∀ (l : List Named) (x : Named), x ∈ l.takeWhile p → p x = true := by
  intro l
  induction l with
  | nil => intro x hx; simp [List.takeWhile] at hx
  | cons a as ih =>
    intro x hx
    rw [List.takeWhile_cons] at hx
    by_cases hpa : p a = true
    · rw [if_pos hpa] at hx
      cases hx with
      | head => exact hpa
      | tail _ hx' => exact ih x hx'
    · rw [if_neg hpa] at hx
      cases hx

theorem ruleTestAux_found_length (pat : List Needle) :
    ∀ (s e : List Named), ruleTestAux pat s = some (TestResult.found e) →
      e.length = pat.length := by
  intro s
  induction s with
  | nil => intro e h; simp [ruleTestAux] at h
  | cons t rest ih =>
    intro e h
    unfold ruleTestAux at h
    split at h
    · cases h
    · split at h
      · split at h
        · rename_i hlen
          split at h
          · cases h
          · cases h; exact hlen
          · exact ih e h
        · exact ih e h
      · exact ih e h

theorem ruleTestAux_found_append (pat : List Needle) (P : Named → Prop) :
    ∀ (d m e : List Named), (∀ x ∈ d, P x) →
      (∀ hp, e.head? = some hp → ¬ P hp) →
      ruleTestAux pat (d ++ m) = some (TestResult.found e) →
      ruleTestAux pat m = some (TestResult.found e) := by
  intro d
  induction d with
  | nil => intro m e _ _ h; exact h
  | cons x d' ih =>
    intro m e hd hhd h
    rw [List.cons_append] at h
    unfold ruleTestAux at h
    split at h
    · cases h
    · rename_i n0 hn0
      split at h
      · split at h
        · split at h
          · cases h
          · cases h
            refine absurd (hd x (List.mem_cons_self x d')) (hhd x ?_)
            cases pat with
            | nil => simp at hn0
            | cons p0 pt => rfl
          · exact ih m e (fun y hy => hd y (List.mem_cons_of_mem x hy)) hhd h
        · exact ih m e (fun y hy => hd y (List.mem_cons_of_mem x hy)) hhd h
      · exact ih m e (fun y hy => hd y (List.mem_cons_of_mem x hy)) hhd h

theorem match_rule_fuel_no_progress :
    ∀ (f : Nat) (r : Rule) (s e : List Named) (lastTok : Named),
      ¬ s.length < r.pattern.length →
      Rule.test r s = some (TestResult.found e) →
      e.getLast? = some lastTok →
      s.dropWhile (fun v =>
        if v.span.start.line < lastTok.span.stop.line then true
        else if v.span.start.line = lastTok.span.stop.line then
          decide (v.span.start.column < lastTok.span.stop.column)
        else false) = s →
      match_rule_fuel f r s = none := by
  intro f
  induction f with
  | zero => intro r s e lastTok _ _ _ _; rfl
  | succ f ih =>
    intro r s e lastTok hg hTest hL hDrop
    unfold match_rule_fuel
    rw [if_neg hg]
    split
    · rfl
    · rename_i heq
      rw [hTest] at heq
      cases heq
    · rename_i e' heq
      rw [hTest] at heq
      cases heq
      split
      · rfl
      · rename_i lastTok' heq2
        rw [hL] at heq2
        cases heq2
        rw [hDrop, ih r s e lastTok hg hTest hL hDrop]
        rfl

theorem match_rule_fuel_pairwise :
    ∀ (f : Nat) (r : Rule) (tokens : List Named) (ms : List (Rule × List Named)),
      List.Pairwise (fun a b : Named => lcLe a.span.start b.span.start) tokens →
      match_rule_fuel f r tokens = some ms →
      List.Pairwise windowRel ms := by
  intro f
  induction f with
  | zero => intro r tokens ms _ h; cases h
  | succ f ih =>
    intro r tokens ms hsort h
    unfold match_rule_fuel at h
    split at h
    · cases h; exact List.Pairwise.nil
    · split at h
      · cases h
      · cases h; exact List.Pairwise.nil
      · rename_i e hT
        split at h
        · cases h
        · rename_i lastTok hL
          simp only [Option.map_eq_some'] at h
          obtain ⟨rest, hrest, rfl⟩ := h
          have hsort' : List.Pairwise (fun a b : Named => lcLe a.span.start b.span.start)
              (tokens.dropWhile (fun v =>
                if v.span.start.line < lastTok.span.stop.line then true
                else if v.span.start.line = lastTok.span.stop.line then
                  decide (v.span.start.column < lastTok.span.stop.column)
                else false)) :=
            List.Pairwise.sublist (List.dropWhile_sublist _) hsort
          have hKey : ∀ hp, e.head? = some hp →
              lcLt hp.span.start lastTok.span.stop := by
            intro hp hhp
            by_contra hcon
            have hhd : ∀ hp2, e.head? = some hp2 →
                ¬ lcLt hp2.span.start lastTok.span.stop := by
              intro hp2 hhp2
              rw [hhp] at hhp2
              cases hhp2
              exact hcon
            have hmain : ruleTestAux r.pattern
                (tokens.takeWhile (fun v =>
                  if v.span.start.line < lastTok.span.stop.line then true
                  else if v.span.start.line = lastTok.span.stop.line then
                    decide (v.span.start.column < lastTok.span.stop.column)
                  else false) ++ tokens.dropWhile (fun v =>
                  if v.span.start.line < lastTok.span.stop.line then true
                  else if v.span.start.line = lastTok.span.stop.line then
                    decide (v.span.start.column < lastTok.span.stop.column)
                  else false)) = some (TestResult.found e) := by
              rw [List.takeWhile_append_dropWhile]
              exact hT
            have hrefind := ruleTestAux_found_append r.pattern
              (fun x => lcLt x.span.start lastTok.span.stop) _ _ e
              (fun x hx => (dropPred_eq_true_iff x lastTok.span.stop).mp
                (mem_takeWhile_pred _ tokens x hx))
              hhd hmain
            have hesub2 := ruleTestAux_found_sublist r.pattern _ e hrefind
            have hg2 : ¬ (tokens.dropWhile (fun v =>
                if v.span.start.line < lastTok.span.stop.line then true
                else if v.span.start.line = lastTok.span.stop.line then
                  decide (v.span.start.column < lastTok.span.stop.column)
                else false)).length < r.pattern.length := by
              have h1 : e.length = r.pattern.length :=
                ruleTestAux_found_length r.pattern tokens e hT
              have h2 := hesub2.length_le
              omega
            have hfix : (tokens.dropWhile (fun v =>
                if v.span.start.line < lastTok.span.stop.line then true
                else if v.span.start.line = lastTok.span.stop.line then
                  decide (v.span.start.column < lastTok.span.stop.column)
                else false)).dropWhile (fun v =>
                if v.span.start.line < lastTok.span.stop.line then true
                else if v.span.start.line = lastTok.span.stop.line then
                  decide (v.span.start.column < lastTok.span.stop.column)
                else false) = tokens.dropWhile (fun v =>
                if v.span.start.line < lastTok.span.stop.line then true
                else if v.span.start.line = lastTok.span.stop.line then
                  decide (v.span.start.column < lastTok.span.stop.column)
                else false) := by
              cases hm : tokens.dropWhile (fun v =>
                  if v.span.start.line < lastTok.span.stop.line then true
                  else if v.span.start.line = lastTok.span.stop.line then
                    decide (v.span.start.column < lastTok.span.stop.column)
                  else false) with
              | nil => rfl
              | cons hh tt =>
                have hmem : hh ∈ tokens.dropWhile (fun v =>
                    if v.span.start.line < lastTok.span.stop.line then true
                    else if v.span.start.line = lastTok.span.stop.line then
                      decide (v.span.start.column < lastTok.span.stop.column)
                    else false) := by
                  rw [hm]; exact List.mem_cons_self _ _
                have hble :=
                  dropWhile_sorted_bound lastTok.span.stop tokens hsort hh hmem
                rw [List.dropWhile_cons,
                  if_neg (fun hpred =>
                    lcLe_not_lt hble
                      ((dropPred_eq_true_iff hh lastTok.span.stop).mp hpred))]
            have hnp := match_rule_fuel_no_progress f r _ e lastTok hg2
              hrefind hL hfix
            rw [hnp] at hrest
            cases hrest
          refine List.Pairwise.cons ?_ (ih r _ rest hsort' hrest)
          intro q hq
          have hq_sub := match_rule_fuel_window_sublist f r _ rest hrest q hq
          have hbound : ∀ t ∈ q.2, lcLe lastTok.span.stop t.span.start :=
            fun t ht =>
              dropWhile_sorted_bound lastTok.span.stop tokens hsort t
                (hq_sub.subset ht)
          constructor
          · intro l hl hdq hhdq
            rw [hL] at hl
            cases hl
            exact hbound hdq (List.mem_of_mem_head? hhdq)
          · intro hp hhp hq2 hhq2
            exact lcLt_lcLe_trans (hKey hp hhp)
              (hbound hq2 (List.mem_of_mem_head? hhq2))

/-! ## Claim theorems -/

/-- C1, counterexample: the spec asserts that the needle
`("Ident", "/^test_/")` matches the token `("Ident", "test_foo")`, but
`Needle::test` hands the WHOLE value — the surrounding slashes included —
to the regex engine, and the pattern `/^test_/` (a literal slash followed
by the start anchor) can match no text at all, so the test yields false. -/
theorem needle_regex_example_fails :
    Needle.test ⟨"Ident", some "/^test_/"⟩ ⟨"Ident", "test_foo", spanZero⟩ =
      some false := by decide

/-- C1, amended: `Needle.test` returns `some true` exactly when the kind
strings are equal and the value is absent, or equal to the token text when
not slash-wrapped, or — when slash-wrapped — the full value (slashes
included) compiles as a regular expression matching the token text
anywhere; consequently the needle `("Ident", "/^test_/")` matches neither
`("Ident", "test_foo")` nor `("Ident", "foo_test")`. -/
theorem needle_test_characterization :
    (∀ (n : Needle) (t : Named),
      Needle.test n t = some true ↔
        t.kind = n.kind ∧
          (n.value = none ∨
            ∃ v, n.value = some v ∧
              ((slashWrapped v = false ∧ t.text = v) ∨
               (slashWrapped v = true ∧
                 ∃ p, regexCompile v = some p ∧ risMatch p t.text = true)))) ∧
    Needle.test ⟨"Ident", some "/^test_/"⟩ ⟨"Ident", "test_foo", spanZero⟩ =
      some false ∧
    Needle.test ⟨"Ident", some "/^test_/"⟩ ⟨"Ident", "foo_test", spanZero⟩ =
      some false := by
  refine ⟨?_, by decide, by decide⟩
  intro n t
  by_cases hk : t.kind = n.kind
  · cases hv : n.value with
    | none => simp [Needle.test, hk, hv]
    | some v =>
      cases hw : slashWrapped v with
      | false => simp [Needle.test, hk, hv, hw]
      | true =>
        cases hc : regexCompile v with
        | none => simp [Needle.test, hk, hv, hw, hc]
        | some p => simp [Needle.test, hk, hv, hw, hc]
  · simp [Needle.test, hk]

/-- C3: when the token sequence is shorter than the rule's pattern,
`match_rule` returns the empty match list at once, before any scan. -/
theorem match_rule_short_input (r : Rule) (tokens : List Named)
    (h : tokens.length < r.pattern.length) :
    match_rule r tokens = some [] := by
  unfold match_rule match_rule_fuel
  simp [h]

/-- Witness for C3 at a concrete input. -/
theorem match_rule_short_input_witness :
    ([] : List Named).length < ruleIdentX.pattern.length ∧
      match_rule ruleIdentX [] = some [] :=
  ⟨by decide, match_rule_short_input ruleIdentX [] (by decide)⟩

/-- C4, counterexample: an invalid regex inside a needle value is NOT
rejected before scanning; the very first evaluation of `Needle::test`
against a token of the matching kind compiles it with `unwrap` and
panics — a per-token failure during matching, contradicting the claim. -/
theorem invalid_regex_panics_during_match :
    Needle.test ⟨"Ident", some "/(/"⟩ ⟨"Ident", "x", spanZero⟩ = none := by
  decide

/-- C4, amended: a slash-wrapped needle value whose regex does not compile
is not a configuration-time error; `Needle.test` panics (models `none`)
during matching as soon as the token's kind matches the needle's, and
short-circuits to `some false` otherwise. -/
theorem invalid_regex_panic_characterization (n : Needle) (t : Named)
    (v : String) (hv : n.value = some v) (hw : slashWrapped v = true)
    (hc : regexCompile v = none) :
    Needle.test n t = if t.kind = n.kind then none else some false := by
  by_cases hk : t.kind = n.kind <;> simp [Needle.test, hk, hv, hw, hc]

/-- Witness for C4 at a concrete input. -/
theorem invalid_regex_panic_characterization_witness :
    ((⟨"Ident", some "/(/"⟩ : Needle).value = some "/(/" ∧
     slashWrapped "/(/" = true ∧ regexCompile "/(/" = none) ∧
    Needle.test ⟨"Ident", some "/(/"⟩ ⟨"Punct", ".", spanZero⟩ =
      (if (Named.mk "Punct" "." spanZero).kind = (Needle.mk "Ident" (some "/(/")).kind
       then none else some false) :=
  ⟨⟨rfl, by decide, by decide⟩,
   invalid_regex_panic_characterization _ _ _ rfl (by decide) (by decide)⟩

/-- C10, counterexample: with an empty pattern and the EMPTY token
sequence, `match_rule` does not panic: the guard fails (0 < 0 is false),
the scan loop never runs its filter closure, and the empty match list is
returned, contradicting the claim's "every token sequence (including the
empty one)". -/
theorem empty_pattern_empty_tokens_no_panic :
    match_rule ruleEmptyPat [] = some [] := by decide

/-- C10, amended: for a rule with an empty pattern, `match_rule` panics
(`pattern.first().unwrap()` inside the filter closure, modelled `none`) on
every NON-EMPTY token sequence, and returns the empty list without panic on
the empty sequence; under the spec's precondition that patterns are
non-empty the panic stays unreachable. -/
theorem empty_pattern_behavior (r : Rule) (hr : r.pattern = []) :
    (∀ tokens : List Named, tokens ≠ [] → match_rule r tokens = none) ∧
      match_rule r [] = some [] := by
  constructor
  · intro tokens ht
    cases tokens with
    | nil => exact absurd rfl ht
    | cons t ts =>
      unfold match_rule match_rule_fuel
      simp [hr, Rule.test, ruleTestAux]
  · unfold match_rule match_rule_fuel
    simp [hr, Rule.test, ruleTestAux]

/-- Witness for C10 at a concrete input. -/
theorem empty_pattern_behavior_witness :
    ruleEmptyPat.pattern = [] ∧
      ((∀ tokens : List Named, tokens ≠ [] → match_rule ruleEmptyPat tokens = none) ∧
        match_rule ruleEmptyPat [] = some []) :=
  ⟨by decide, empty_pattern_behavior ruleEmptyPat (by decide)⟩

/-- C2, counterexample: over a token list that is not in source order the
engine's windows are neither disjoint nor start-increasing. With the rule
matching `Ident` text `x` over `[tokA, tokB, tokC]`, the engine first
matches `[tokA]` (ending at line 1, column 1) and then matches `[tokC]`,
whose first token starts at line 1, column 0 — strictly BEFORE the end of
the previous match's last token, and with the same start position as the
previous match's first token. -/
theorem match_rule_order_counterexample :
    match_rule ruleIdentX [tokA, tokB, tokC] =
        some [(ruleIdentX, [tokA]), (ruleIdentX, [tokC])] ∧
      lcLt tokC.span.start tokA.span.stop ∧
      tokC.span.start = tokA.span.start :=
  ⟨by decide, by decide, by decide⟩

/-- C2, amended: when the token sequence is sorted by start position
(line first, then column), every match list `match_rule` returns is
pairwise ordered: each later match's first token starts at or after the
line/column end of the previous match's last token, and the first tokens'
start positions strictly increase (so the windows are disjoint in source
position). No further hypothesis is needed: were a window's head to start
at or after its own last token's line/column end, the resumed scan would
re-find that same window, drop no token, and recurse forever, so the
engine would diverge (`none`) instead of returning a match list. -/
theorem match_rule_sorted_ordered (r : Rule) (tokens : List Named)
    (ms : List (Rule × List Named))
    (hsort : List.Pairwise (fun a b : Named => lcLe a.span.start b.span.start) tokens)
    (h : match_rule r tokens = some ms) :
    List.Pairwise windowRel ms :=
  match_rule_fuel_pairwise (tokens.length + 1) r tokens ms hsort h

/-- Witness for C2 at a concrete sorted input with two matches. -/
theorem match_rule_sorted_ordered_witness :
    (List.Pairwise (fun a b : Named => lcLe a.span.start b.span.start) [tokA, tokD] ∧
     match_rule ruleIdentX [tokA, tokD] =
       some [(ruleIdentX, [tokA]), (ruleIdentX, [tokD])]) ∧
    List.Pairwise windowRel [(ruleIdentX, [tokA]), (ruleIdentX, [tokD])] :=
  ⟨⟨by decide, by decide⟩,
   match_rule_sorted_ordered ruleIdentX [tokA, tokD] _ (by decide) (by decide)⟩

/-- C8: the primary compiler span carries the rule's `replace` value as
`suggested_replacement` (null when absent) and a null
`suggestion_applicability`. -/
theorem span_replacement_fields (e : LintError) (sp : CompilerSpan)
    (h : intoCompilerSpan e = some sp) :
    sp.suggestedReplacement = e.rule.replace ∧
      sp.suggestionApplicability = none := by
  obtain ⟨ft, lt, _, _, _, _, rfl⟩ := intoCompilerSpan_inv e sp h
  exact ⟨rfl, rfl⟩

/-- Witness for C8 at a concrete violation. -/
theorem span_replacement_fields_witness :
    intoCompilerSpan errSample = some spSample ∧
      (spSample.suggestedReplacement = errSample.rule.replace ∧
        spSample.suggestionApplicability = none) :=
  ⟨by decide, span_replacement_fields errSample spSample (by decide)⟩

/-- C9: when the window's byte length exceeds `byte_start` minus the stored
line-start offset, the span conversion panics on the usize underflow while
computing `highlight_start` (modelled `none`), and `json_diagnostic`
therefore produces no structured diagnostic. -/
theorem highlight_underflow_panics (e : LintError) (ft lt : Named)
    (hf : e.window.head? = some ft) (hl : e.window.getLast? = some lt)
    (h1 : e.line.2 ≤ ft.span.byteStart)
    (h2 : ft.span.byteStart ≤ lt.span.byteEnd)
    (h3 : ft.span.byteStart - e.line.2 <
      lt.span.byteEnd - ft.span.byteStart) :
    intoCompilerSpan e = none ∧
      ∀ p rd, json_diagnostic e p rd = none := by
  have hspan : intoCompilerSpan e = none := by
    unfold intoCompilerSpan
    rw [hf, hl]
    simp only [checkedSub, if_pos h1, if_pos h2, Option.some_bind]
    rw [if_neg (Nat.not_le.mpr h3)]
    rfl
  exact ⟨hspan, fun p rd => by unfold json_diagnostic; rw [hspan]; rfl⟩

/-- Witness for C9: a match whose first token starts at byte offset 0 of
the file. -/
theorem highlight_underflow_panics_witness :
    (errZero.window.head? = some tokA ∧ errZero.window.getLast? = some tokA ∧
     errZero.line.2 ≤ tokA.span.byteStart ∧
     tokA.span.byteStart ≤ tokA.span.byteEnd ∧
     tokA.span.byteStart - errZero.line.2 <
       tokA.span.byteEnd - tokA.span.byteStart) ∧
    (intoCompilerSpan errZero = none ∧
      ∀ p rd, json_diagnostic errZero p rd = none) :=
  ⟨⟨by decide, by decide, by decide, by decide, by decide⟩,
   highlight_underflow_panics errZero tokA tokA (by decide) (by decide)
     (by decide) (by decide) (by decide)⟩

/-- C5, counterexample: for a matched rule whose `help` is None the
structured diagnostic's children consist of a SINGLE child carrying the
diagnostic's own warning/error level (not the level "note") with the rule
description, and NO "help" child with a fallback text is emitted. -/
theorem json_children_counterexample :
    errSample.rule.help = none ∧
      (json_diagnostic errSample "/tmp/f.rs" "rendered").map
          (fun m => m.message.children.map (fun c => c.level)) =
        some [CompilerMessageLevel.warning] :=
  ⟨by decide, by decide⟩

/-- C5, amended: the children of a structured diagnostic are, in order, one
child of the diagnostic's own error/warning level carrying the rule
description with no spans, followed by one "help" child carrying the help
text and the primary span only when `rule.help` is present (no child at all
when it is None). -/
theorem json_children_shape (e : LintError) (absPath rendered : String)
    (msg : CompilerMessage) (sp : CompilerSpan)
    (hs : intoCompilerSpan e = some sp)
    (h : json_diagnostic e absPath rendered = some msg) :
    msg.message.children =
      [{ children := [], code := none,
         level := if e.rule.fails then CompilerMessageLevel.error
                  else CompilerMessageLevel.warning,
         message := e.rule.description, rendered := none, spans := [] }] ++
      (match e.rule.help with
       | some hlp =>
         [{ children := [], code := none, level := CompilerMessageLevel.help,
            message := hlp, rendered := none, spans := [sp] }]
       | none => []) := by
  unfold json_diagnostic at h
  rw [hs] at h
  simp only [Option.map_some'] at h
  cases h
  rfl

/-- Witness for C5 at a concrete violation. -/
theorem json_children_shape_witness :
    (intoCompilerSpan errSample = some spSample ∧
     json_diagnostic errSample "/tmp/f.rs" "rendered" = some msgSample) ∧
    msgSample.message.children =
      [{ children := [], code := none,
         level := if errSample.rule.fails then CompilerMessageLevel.error
                  else CompilerMessageLevel.warning,
         message := errSample.rule.description, rendered := none,
         spans := [] }] ++
      (match errSample.rule.help with
       | some hlp =>
         [{ children := [], code := none, level := CompilerMessageLevel.help,
            message := hlp, rendered := none, spans := [spSample] }]
       | none => []) :=
  ⟨⟨by decide, by decide⟩,
   json_children_shape errSample "/tmp/f.rs" "rendered" msgSample spSample
     (by decide) (by decide)⟩

/-- C7, counterexample: with a token claiming line 5 inside the one-line
source `abc`, the builder does not abort: `test` succeeds and silently
produces a violation whose source-line text is the substitute empty string
(with offset 3, the character count of every existing line). -/
theorem out_of_range_line_counterexample :
    (linesOf "abc").length < tokLine5.span.start.line ∧
      (test [("r", ruleAnyIdent)] [tokLine5] "abc" "f.rs").map
          (List.map (fun e => e.line)) = some [("", 3)] :=
  ⟨by decide, by decide⟩

/-- C7, amended: when the line number of a match's first token is out of
range of the source's lines, the builder does NOT fail; the
`unwrap_or_default` in lib.rs silently records the empty string as the
violation's source-line text. -/
theorem out_of_range_line_uses_empty_string (rules : List (String × Rule))
    (tokens : List Named) (source fileName : String) (errs : List LintError)
    (hrun : test rules tokens source fileName = some errs) :
    ∀ e ∈ errs, ∀ ft, e.window.head? = some ft →
      (linesOf source).length ≤ ft.span.start.line - 1 → e.line.1 = "" := by
  unfold test at hrun
  simp only [Option.bind_eq_some] at hrun
  obtain ⟨per, hper, herrs⟩ := hrun
  intro e he ft hft hlen
  obtain ⟨p, hp, hbuild⟩ := optionMapM_mem _ per.flatten errs herrs e he
  obtain ⟨ft0, l, hft0, hline0, rfl⟩ :=
    buildLintError_inv p.1 p.2 source fileName e hbuild
  have hftp : p.2.head? = some ft := hft
  rw [hft0] at hftp
  cases hftp
  have hl : ft.span.start.line - 1 = l := by omega
  rw [hl] at hlen
  show (linesOf source).getD l "" = ""
  simp [List.getD_eq_getElem?_getD, List.getElem?_eq_none hlen]

/-- Witness for C7 at a concrete out-of-range input. -/
theorem out_of_range_line_uses_empty_string_witness :
    (test [("r", ruleAnyIdent)] [tokLine5] "abc" "f.rs" = some [errLine5] ∧
     errLine5 ∈ [errLine5] ∧ errLine5.window.head? = some tokLine5 ∧
     (linesOf "abc").length ≤ tokLine5.span.start.line - 1) ∧
    errLine5.line.1 = "" :=
  ⟨⟨by decide, by decide, by decide, by decide⟩,
   out_of_range_line_uses_empty_string [("r", ruleAnyIdent)] [tokLine5]
     "abc" "f.rs" [errLine5] (by decide) errLine5 (by decide) tokLine5
     (by decide) (by decide)⟩

/-- C6: for every violation built by `test`, the stored line offset is the
sum of the character counts of all lines strictly before the line of the
window's first token, and the primary span's highlight range satisfies
`highlight_end = byte_start - line_start_offset` and `highlight_start =
highlight_end - (byte_end - byte_start)`, where `byte_start`/`byte_end` are
the byte offsets of the window's first token start and last token end. -/
theorem highlight_arithmetic (rules : List (String × Rule))
    (tokens : List Named) (source fileName : String) (errs : List LintError)
    (hrun : test rules tokens source fileName = some errs) :
    ∀ e ∈ errs, ∀ ft lt, e.window.head? = some ft →
      e.window.getLast? = some lt →
      e.line.2 = lineOffset source ft.span.start.line ∧
      ∀ sp, intoCompilerSpan e = some sp →
        sp.byteStart = ft.span.byteStart ∧ sp.byteEnd = lt.span.byteEnd ∧
        sp.text = [{ highlightEnd := ft.span.byteStart - e.line.2,
                     highlightStart := (ft.span.byteStart - e.line.2) -
                       (lt.span.byteEnd - ft.span.byteStart),
                     text := e.line.1 }] := by
  unfold test at hrun
  simp only [Option.bind_eq_some] at hrun
  obtain ⟨per, hper, herrs⟩ := hrun
  intro e he ft lt hft hlt
  obtain ⟨p, hp, hbuild⟩ := optionMapM_mem _ per.flatten errs herrs e he
  obtain ⟨ft0, l, hft0, hline0, rfl⟩ :=
    buildLintError_inv p.1 p.2 source fileName e hbuild
  have hftp : p.2.head? = some ft := hft
  rw [hft0] at hftp
  cases hftp
  constructor
  · show (((linesOf source).take l).map String.length).sum =
      lineOffset source ft.span.start.line
    rw [hline0]
    unfold lineOffset
    simp
  · intro sp hsp
    obtain ⟨ft1, lt1, hft1, hlt1, hle1, hle2, rfl⟩ :=
      intoCompilerSpan_inv _ sp hsp
    have hftp1 : p.2.head? = some ft1 := hft1
    rw [hft0] at hftp1
    cases hftp1
    have hltp1 : p.2.getLast? = some lt1 := hlt1
    have hltp : p.2.getLast? = some lt := hlt
    rw [hltp] at hltp1
    cases hltp1
    exact ⟨rfl, rfl, rfl⟩

/-- Witness for C6 at a concrete violation. -/
theorem highlight_arithmetic_witness :
    (test [("r", ruleIdentX)] [tokHi] "hi x" "f.rs" = some [errSample] ∧
     errSample ∈ [errSample] ∧ errSample.window.head? = some tokHi ∧
     errSample.window.getLast? = some tokHi) ∧
    (errSample.line.2 = lineOffset "hi x" tokHi.span.start.line ∧
     ∀ sp, intoCompilerSpan errSample = some sp →
       sp.byteStart = tokHi.span.byteStart ∧
       sp.byteEnd = tokHi.span.byteEnd ∧
       sp.text = [{ highlightEnd := tokHi.span.byteStart - errSample.line.2,
                    highlightStart :=
                      (tokHi.span.byteStart - errSample.line.2) -
                        (tokHi.span.byteEnd - tokHi.span.byteStart),
                    text := errSample.line.1 }]) :=
  ⟨⟨by decide, by decide, by decide, by decide⟩,
   highlight_arithmetic [("r", ruleIdentX)] [tokHi] "hi x" "f.rs"
     [errSample] (by decide) errSample (by decide) tokHi tokHi (by decide)
     (by decide)⟩
